import Mathlib

/-!
# OpenPERouter host-network TC programs

Shallow embedding of the two TC (traffic control) BPF programs

* `src/internal/hostnetwork/bpf/c/nic_ingress.c` (function `nic_ingress`), and
* `src/internal/hostnetwork/bpf/c/ul_host_ingress.c` (function `ul_host_ingress`),

followed by theorems about the verdicts they produce.

Modelling conventions.

* The packet is the list of bytes between `skb->data` (offset 0) and
  `skb->data_end` (offset `skb.length`).  A pointer into the packet is its
  offset from `skb->data`.
* A read of packet memory returns `Option`: `none` is a read at or past
  `data_end`.  The programs run in the `Option` monad, so a result `none`
  of a whole program is an out-of-bounds access.
* Multi-byte loads depend on the byte order of the machine the program is
  compiled for; it is the parameter `o : ByteOrder` of every load and of
  `bpf_ntohs` and `bpf_ntohl`.
* Machine integers are natural numbers; the only arithmetic in the programs
  (`ihl * 4`, `>> 8`) cannot overflow 32 bits.
-/

namespace OpenPERouter

/-! ## Data model -/

/-- One byte of packet memory. -/
abbrev Byte := Fin 256

/-- The bytes of one received frame, from `skb->data` up to `skb->data_end`. -/
abbrev Frame := List Byte

/-- Byte order of the machine the BPF object is compiled for. -/
inductive ByteOrder
  | little
  | big
  deriving DecidableEq, Repr

/-- Modelled from the spec: the outcome of one program run (section 3, Verdict).
`return TC_ACT_OK` is `Pass`; `return bpf_redirect(t, 0)` is `Redirect t`;
`bpf_clone_redirect(skb, t, 0); return TC_ACT_OK` is `CloneRedirect t`. -/
inductive Verdict
  | Pass
  | Redirect (target : Nat)
  | CloneRedirect (target : Nat)
  deriving DecidableEq, Repr

/-- Contents of a `BPF_MAP_TYPE_ARRAY` map with `__u32` values: the value
held by slot 0, slot 1, ...; a map declared with `max_entries` n has the n
slots 0, ..., n - 1 from its creation on. -/
abbrev BpfArray := List Nat

/-- Contents of a `BPF_MAP_TYPE_HASH` map: the (key, value) entries, keys
being the `__u32` / `__be32` value as the host reads it. -/
abbrev BpfHash := List (Nat × Nat)

/-- Modelled from the spec: `bpf_map_lookup_elem` on an array map (kernel
helper, not in the repository); the result is the value held by slot `key`,
or `none` (the NULL pointer) when the map has no slot `key`. -/
def bpf_array_lookup_elem (m : BpfArray) (key : Nat) : Option Nat :=
  m[key]?

/-- Value of `max_entries` of `config_map` in `nic_ingress.c` and in
`ul_host_ingress.c`. -/
def CONFIG_MAX_ENTRIES : Nat := 1

/-- A `BPF_MAP_TYPE_ARRAY` map as the kernel creates it: every one of its
`max_entries` slots exists and holds 0 until it is written. -/
def bpf_array_create (max_entries : Nat) : BpfArray :=
  List.replicate max_entries 0

/-- Modelled from the spec: `bpf_map_lookup_elem` on a hash map (kernel
helper, not in the repository); the result is the value stored under `key`,
or `none` for the NULL pointer (key absent). -/
def bpf_map_lookup_elem (m : BpfHash) (key : Nat) : Option Nat :=
  List.lookup key m

/-! ## Constants -/

/-- Value of `BGP_PORT` in `nic_ingress.c`. -/
def BGP_PORT : Nat := 179
/-- Value of `BFD_CTRL_PORT` in `nic_ingress.c`. -/
def BFD_CTRL_PORT : Nat := 3784
/-- Value of `BFD_ECHO_PORT` in `nic_ingress.c`. -/
def BFD_ECHO_PORT : Nat := 4784
/-- Value of `VXLAN_PORT` in `nic_ingress.c`. -/
def VXLAN_PORT : Nat := 4789

/-- Modelled from the spec: `ETH_P_ARP` of `linux/if_ether.h` (the source
comment gives it as 0x0806). -/
def ETH_P_ARP : Nat := 0x0806
/-- Modelled from the spec: `ETH_P_IP` of `linux/if_ether.h`, the IPv4
EtherType. -/
def ETH_P_IP : Nat := 0x0800
/-- Modelled from the spec: `IPPROTO_TCP` of `linux/in.h`. -/
def IPPROTO_TCP : Nat := 6
/-- Modelled from the spec: `IPPROTO_UDP` of `linux/in.h`. -/
def IPPROTO_UDP : Nat := 17

/-- Modelled from the spec: `sizeof(struct ethhdr)` of `linux/if_ether.h`:
two 6-byte addresses and the 2-byte `h_proto`. -/
def sizeof_ethhdr : Nat := 14
/-- Modelled from the spec: offset of `h_proto` in `struct ethhdr`. -/
def ethhdr_h_proto : Nat := 12
/-- Modelled from the spec: `sizeof(struct iphdr)` of `linux/ip.h`, the
minimum IPv4 header. -/
def sizeof_iphdr : Nat := 20
/-- Modelled from the spec: offset of the byte of `struct iphdr` that holds
the bit-fields `version` and `ihl`. -/
def iphdr_ihl : Nat := 0
/-- Modelled from the spec: offset of `protocol` in `struct iphdr`. -/
def iphdr_protocol : Nat := 9
/-- Modelled from the spec: offset of `saddr` in `struct iphdr`. -/
def iphdr_saddr : Nat := 12
/-- Modelled from the spec: `sizeof(struct tcphdr)` of `linux/tcp.h`. -/
def sizeof_tcphdr : Nat := 20
/-- Modelled from the spec: offset of `source` in `struct tcphdr`. -/
def tcphdr_source : Nat := 0
/-- Modelled from the spec: offset of `dest` in `struct tcphdr`. -/
def tcphdr_dest : Nat := 2
/-- Modelled from the spec: `sizeof(struct udphdr)` of `linux/udp.h`. -/
def sizeof_udphdr : Nat := 8
/-- Modelled from the spec: offset of `dest` in `struct udphdr`. -/
def udphdr_dest : Nat := 2

/-! ## Packet memory and byte order -/

/-- Read of the byte at offset `off`; `none` at or past `data_end`. -/
def load8 (skb : Frame) (off : Nat) : Option Nat :=
  (skb[off]?).map Fin.val

/-- Value the host gives to two bytes of memory, `b0` at the lower address. -/
def host16 (o : ByteOrder) (b0 b1 : Nat) : Nat :=
  match o with
  | .little => b0 + 256 * b1
  | .big => 256 * b0 + b1

/-- Value the host gives to four bytes of memory, `b0` at the lowest address. -/
def host32 (o : ByteOrder) (b0 b1 b2 b3 : Nat) : Nat :=
  match o with
  | .little => b0 + 256 * b1 + 65536 * b2 + 16777216 * b3
  | .big => 16777216 * b0 + 65536 * b1 + 256 * b2 + b3

/-- A 16-bit load from packet memory at offset `off`. -/
def load16 (o : ByteOrder) (skb : Frame) (off : Nat) : Option Nat := do
  let b0 ← load8 skb off
  let b1 ← load8 skb (off + 1)
  pure (host16 o b0 b1)

/-- A 32-bit load from packet memory at offset `off` (also the
`__builtin_memcpy` of four bytes into a `__be32`). -/
def load32 (o : ByteOrder) (skb : Frame) (off : Nat) : Option Nat := do
  let b0 ← load8 skb off
  let b1 ← load8 skb (off + 1)
  let b2 ← load8 skb (off + 2)
  let b3 ← load8 skb (off + 3)
  pure (host32 o b0 b1 b2 b3)

/-- Byte swap of a 16-bit value. -/
def bswap16 (x : Nat) : Nat :=
  (x % 256) * 256 + (x / 256) % 256

/-- Byte swap of a 32-bit value. -/
def bswap32 (x : Nat) : Nat :=
  (x % 256) * 16777216 + (x / 256 % 256) * 65536 + (x / 65536 % 256) * 256
    + (x / 16777216) % 256

/-- Modelled from the spec: `bpf_ntohs` of `bpf/bpf_endian.h`: network
(big-endian) to host order, a swap on a little-endian host. -/
def bpf_ntohs (o : ByteOrder) (x : Nat) : Nat :=
  match o with
  | .little => bswap16 x
  | .big => x

/-- Modelled from the spec: `bpf_ntohl` of `bpf/bpf_endian.h`. -/
def bpf_ntohl (o : ByteOrder) (x : Nat) : Nat :=
  match o with
  | .little => bswap32 x
  | .big => x

/-- Modelled from the spec: the bit-field `ihl` of `struct iphdr`, the low
four bits of the first header byte (the high four are `version`). -/
def iphdr_get_ihl (b : Nat) : Nat :=
  b % 16

/-! ## The programs -/

/-- The TC program `nic_ingress` of `nic_ingress.c`, attached to the NIC. -/
def nic_ingress (o : ByteOrder) (config_map : BpfArray)
    (neighbor_map vni_map : BpfHash) (skb : Frame) : Option Verdict :=
  let key := 0
  match bpf_array_lookup_elem config_map key with
  | none => some Verdict.Pass
  | some ul_host_ifindex =>
    let data := 0
    let data_end := skb.length
    -- Parse Ethernet header
    let eth := data
    if eth + sizeof_ethhdr > data_end then some Verdict.Pass else
    (load16 o skb (eth + ethhdr_h_proto)).bind fun h_proto =>
    let eth_type := bpf_ntohs o h_proto
    -- ARP: clone to ul-host
    if eth_type = ETH_P_ARP then some (Verdict.CloneRedirect ul_host_ifindex) else
    -- Not IPv4 -> pass
    if eth_type ≠ ETH_P_IP then some Verdict.Pass else
    -- Parse IPv4
    let ip := eth + sizeof_ethhdr
    if ip + sizeof_iphdr > data_end then some Verdict.Pass else
    -- Validate IP header length
    (load8 skb (ip + iphdr_ihl)).bind fun ver_ihl =>
    let ip_hdr_len := iphdr_get_ihl ver_ihl * 4
    if ip_hdr_len < sizeof_iphdr then some Verdict.Pass else
    if ip + ip_hdr_len > data_end then some Verdict.Pass else
    (load32 o skb (ip + iphdr_saddr)).bind fun src_ip =>
    (load8 skb (ip + iphdr_protocol)).bind fun protocol =>
    -- TCP: BGP (port 179)
    if protocol = IPPROTO_TCP then
      let tcp := ip + ip_hdr_len
      if tcp + sizeof_tcphdr > data_end then some Verdict.Pass else
      (load16 o skb (tcp + tcphdr_source)).bind fun source =>
      (load16 o skb (tcp + tcphdr_dest)).bind fun dest =>
      let sport := bpf_ntohs o source
      let dport := bpf_ntohs o dest
      if (sport = BGP_PORT ∨ dport = BGP_PORT) ∧
          (bpf_map_lookup_elem neighbor_map src_ip).isSome then
        some (Verdict.Redirect ul_host_ifindex)
      else some Verdict.Pass
    else
    -- UDP: BFD or VXLAN
    if protocol = IPPROTO_UDP then
      let udp := ip + ip_hdr_len
      if udp + sizeof_udphdr > data_end then some Verdict.Pass else
      (load16 o skb (udp + udphdr_dest)).bind fun dest =>
      let dport := bpf_ntohs o dest
      -- BFD control or echo
      if dport = BFD_CTRL_PORT ∨ dport = BFD_ECHO_PORT then
        if (bpf_map_lookup_elem neighbor_map src_ip).isSome then
          some (Verdict.Redirect ul_host_ifindex)
        else some Verdict.Pass
      else
      -- VXLAN
      if dport = VXLAN_PORT then
        let vxlan_ptr := udp + sizeof_udphdr
        if vxlan_ptr + 8 > data_end then some Verdict.Pass else
        (load32 o skb (vxlan_ptr + 4)).bind fun vni_word =>
        let vni := bpf_ntohl o vni_word >>> 8
        if (bpf_map_lookup_elem vni_map vni).isSome then
          some (Verdict.Redirect ul_host_ifindex)
        else some Verdict.Pass
      else some Verdict.Pass
    else some Verdict.Pass

/-- The TC program `ul_host_ingress` of `ul_host_ingress.c`, attached to the
ul-host veth. -/
def ul_host_ingress (config_map : BpfArray) (_skb : Frame) : Option Verdict :=
  let key := 0
  match bpf_array_lookup_elem config_map key with
  | none => some Verdict.Pass
  | some nic_ifindex => some (Verdict.Redirect nic_ifindex)


/-! ## Fields of a frame, as the wire format defines them -/

/-- The byte at offset `i` as a number, and 0 when the frame has no such byte. -/
def byteAt (skb : Frame) (i : Nat) : Nat :=
  (load8 skb i).getD 0

/-- The big-endian 16-bit number held by the bytes at offsets `i`, `i + 1`. -/
def be16At (skb : Frame) (i : Nat) : Nat :=
  256 * byteAt skb i + byteAt skb (i + 1)

/-- EtherType: bytes 12-13, big-endian. -/
def etherType (skb : Frame) : Nat := be16At skb 12

/-- IPv4 header length field: the low nibble of byte 14. -/
def ipIhl (skb : Frame) : Nat := byteAt skb 14 % 16

/-- IPv4 protocol: byte 23. -/
def ipProto (skb : Frame) : Nat := byteAt skb 23

/-- Offset of the transport header: 14 + 4 * IHL. -/
def l4Off (skb : Frame) : Nat := 14 + 4 * ipIhl skb

/-- The four source-address bytes (offsets 26-29) as the map key the host
forms from them. -/
def saddrKey (o : ByteOrder) (skb : Frame) : Nat :=
  host32 o (byteAt skb 26) (byteAt skb 27) (byteAt skb 28) (byteAt skb 29)

/-- TCP source port, big-endian at the start of the transport header. -/
def tcpSport (skb : Frame) : Nat := be16At skb (l4Off skb)

/-- TCP or UDP destination port, big-endian at transport offset 2. -/
def l4Dport (skb : Frame) : Nat := be16At skb (l4Off skb + 2)

/-- UDP source port, big-endian at the start of the transport header. -/
def udpSport (skb : Frame) : Nat := be16At skb (l4Off skb)

/-- Offset of the VXLAN header: right after the 8-byte UDP header. -/
def vxlanOff (skb : Frame) : Nat := l4Off skb + 8

/-- VNI: VXLAN header bytes 4, 5, 6 read big-endian. -/
def vxlanVni (skb : Frame) : Nat :=
  65536 * byteAt skb (vxlanOff skb + 4) + 256 * byteAt skb (vxlanOff skb + 5)
    + byteAt skb (vxlanOff skb + 6)

/-- Key `k` has an entry in the hash map. -/
def hasKey (m : BpfHash) (k : Nat) : Prop :=
  k ∈ m.map Prod.fst

instance (m : BpfHash) (k : Nat) : Decidable (hasKey m k) := by
  unfold hasKey; infer_instance

/-- The binding slot (index 0 of `config_map`) holds `t`. -/
def bindingSet (config_map : BpfArray) (t : Nat) : Prop :=
  config_map[0]? = some t

/-- The binding has not been set: `config_map` is the one-entry array as
created, its slot 0 never written and so holding 0 (no interface has index
0). -/
def bindingUnset (config_map : BpfArray) : Prop :=
  config_map = bpf_array_create CONFIG_MAX_ENTRIES

instance (config_map : BpfArray) (t : Nat) : Decidable (bindingSet config_map t) := by
  unfold bindingSet; infer_instance

instance (config_map : BpfArray) : Decidable (bindingUnset config_map) := by
  unfold bindingUnset; infer_instance

/-- Closed form of `nic_ingress` for a binding set to `t`, written over the
wire-format fields; `nic_ingress_eq_closed` proves the program computes it. -/
def nic_ingress_closed (o : ByteOrder) (t : Nat) (neighbor_map vni_map : BpfHash)
    (skb : Frame) : Verdict :=
  if skb.length < 14 then Verdict.Pass
  else if etherType skb = 0x0806 then Verdict.CloneRedirect t
  else if etherType skb ≠ 0x0800 then Verdict.Pass
  else if skb.length < 34 then Verdict.Pass
  else if ipIhl skb < 5 then Verdict.Pass
  else if skb.length < l4Off skb then Verdict.Pass
  else if ipProto skb = 6 then
    if skb.length < l4Off skb + 20 then Verdict.Pass
    else if (tcpSport skb = 179 ∨ l4Dport skb = 179) ∧ hasKey neighbor_map (saddrKey o skb) then
      Verdict.Redirect t
    else Verdict.Pass
  else if ipProto skb = 17 then
    if skb.length < l4Off skb + 8 then Verdict.Pass
    else if l4Dport skb = 3784 ∨ l4Dport skb = 4784 then
      if hasKey neighbor_map (saddrKey o skb) then Verdict.Redirect t else Verdict.Pass
    else if l4Dport skb = 4789 then
      if skb.length < vxlanOff skb + 8 then Verdict.Pass
      else if hasKey vni_map (vxlanVni skb) then Verdict.Redirect t
      else Verdict.Pass
    else Verdict.Pass
  else Verdict.Pass

/-- The verdict `v` is `Pass`, `Redirect t` or `CloneRedirect t`. -/
def targetsOnly (t : Nat) (v : Verdict) : Prop :=
  v = Verdict.Pass ∨ v = Verdict.Redirect t ∨ v = Verdict.CloneRedirect t

/-! ## Table operations of the control plane -/

/-- Value of `max_entries` of `neighbor_map` in `nic_ingress.c`. -/
def NEIGHBOR_MAX_ENTRIES : Nat := 64

/-- Value of `max_entries` of `vni_map` in `nic_ingress.c`. -/
def VNI_MAX_ENTRIES : Nat := 1024

/-- Modelled from the spec: what a table mutation reports to its caller
(section 4.3: an upsert beyond capacity fails with a capacity error). -/
inductive TableResult
  | ok
  | capacity_error
  deriving DecidableEq, Repr

/-- Modelled from the spec: upsert of a key into a table of bounded capacity
(section 4.3; the control plane and the map implementation are not in the
source files).  A key that is present stays present; a new key is added
while fewer than `max_entries` entries are held; otherwise the call fails
with a capacity error and the table is left as it was. -/
def table_upsert (max_entries : Nat) (m : BpfHash) (key : Nat) : TableResult × BpfHash :=
  if hasKey m key then (TableResult.ok, m)
  else if m.length < max_entries then (TableResult.ok, (key, 1) :: m)
  else (TableResult.capacity_error, m)

/-- Modelled from the spec: removal of a key from a table (section 4.3). -/
def table_remove (m : BpfHash) (key : Nat) : BpfHash :=
  m.filter fun e => e.1 != key

/-- Modelled from the spec: `upsert_neighbor(address)` of section 4.3, on
`neighbor_map`. -/
def upsert_neighbor (m : BpfHash) (a : Nat) : TableResult × BpfHash :=
  table_upsert NEIGHBOR_MAX_ENTRIES m a

/-- Modelled from the spec: `remove_neighbor(address)` of section 4.3. -/
def remove_neighbor (m : BpfHash) (a : Nat) : BpfHash :=
  table_remove m a

/-- Modelled from the spec: `lookup_neighbor(address) -> bool` of section
4.3, the lookup the datapath does on `neighbor_map`. -/
def lookup_neighbor (m : BpfHash) (a : Nat) : Bool :=
  (bpf_map_lookup_elem m a).isSome

/-- Modelled from the spec: `upsert_vni(vni)` of section 4.3, on `vni_map`. -/
def upsert_vni (m : BpfHash) (vni : Nat) : TableResult × BpfHash :=
  table_upsert VNI_MAX_ENTRIES m vni

/-- Modelled from the spec: `remove_vni(vni)` of section 4.3. -/
def remove_vni (m : BpfHash) (vni : Nat) : BpfHash :=
  table_remove m vni

/-- Modelled from the spec: `lookup_vni(vni) -> bool` of section 4.3, the
lookup the datapath does on `vni_map`. -/
def lookup_vni (m : BpfHash) (vni : Nat) : Bool :=
  (bpf_map_lookup_elem m vni).isSome

/-- The table reached from the empty one by upserting the keys `n`, ..., 1. -/
def tableOfUpserts (max_entries : Nat) : Nat → BpfHash
  | 0 => []
  | n + 1 => (table_upsert max_entries (tableOfUpserts max_entries n) (n + 1)).2

/-- A full neighbor table: the addresses 1, ..., 64 upserted one by one. -/
def exFullNeighbors : BpfHash := tableOfUpserts NEIGHBOR_MAX_ENTRIES 64

/-- The frame is one `nic_ingress` steers: IPv4 with a fully present header
of IHL at least 5, and (i) TCP with a full 20-byte header, a port 179 and a
source address in the neighbor map, or (ii) UDP with a full header,
destination port 3784 or 4784 and a source address in the neighbor map, or
(iii) UDP with destination port 4789, 8 bytes after the UDP header and a VNI
in the VNI map. -/
def isSteered (o : ByteOrder) (neighbor_map vni_map : BpfHash) (skb : Frame) : Prop :=
  etherType skb = 0x0800 ∧ 34 ≤ skb.length ∧ 5 ≤ ipIhl skb ∧ l4Off skb ≤ skb.length
    ∧ ((ipProto skb = 6 ∧ l4Off skb + 20 ≤ skb.length
          ∧ (tcpSport skb = 179 ∨ l4Dport skb = 179)
          ∧ hasKey neighbor_map (saddrKey o skb))
      ∨ (ipProto skb = 17 ∧ l4Off skb + 8 ≤ skb.length
          ∧ (l4Dport skb = 3784 ∨ l4Dport skb = 4784)
          ∧ hasKey neighbor_map (saddrKey o skb))
      ∨ (ipProto skb = 17 ∧ l4Dport skb = 4789 ∧ vxlanOff skb + 8 ≤ skb.length
          ∧ hasKey vni_map (vxlanVni skb)))

/-- The frame is an ARP frame: 14 bytes or more with EtherType 0x0806. -/
def isArp (skb : Frame) : Prop :=
  14 ≤ skb.length ∧ etherType skb = 0x0806

instance (o : ByteOrder) (neighbor_map vni_map : BpfHash) (skb : Frame) :
    Decidable (isSteered o neighbor_map vni_map skb) := by
  unfold isSteered; infer_instance

instance (skb : Frame) : Decidable (isArp skb) := by
  unfold isArp; infer_instance

/-- The verdict `v` is `Pass` or `Redirect t`. -/
def passOrRedirect (t : Nat) (v : Verdict) : Prop :=
  v = Verdict.Pass ∨ v = Verdict.Redirect t

/-- The frames `f` and `g` agree on the bytes the classifier decides on: the
EtherType bytes 12-13, the IHL nibble of byte 14, the protocol byte 23, the
source address bytes 26-29, and at the transport offset of `f` the four TCP
port bytes when the protocol is TCP, the two UDP destination port bytes and
VXLAN header bytes 4-6 when it is UDP. -/
def sameSteeringFields (f g : Frame) : Prop :=
  byteAt f 12 = byteAt g 12 ∧ byteAt f 13 = byteAt g 13
    ∧ byteAt f 14 % 16 = byteAt g 14 % 16
    ∧ byteAt f 23 = byteAt g 23
    ∧ byteAt f 26 = byteAt g 26 ∧ byteAt f 27 = byteAt g 27
    ∧ byteAt f 28 = byteAt g 28 ∧ byteAt f 29 = byteAt g 29
    ∧ (ipProto f = 6 →
        byteAt f (l4Off f) = byteAt g (l4Off f)
          ∧ byteAt f (l4Off f + 1) = byteAt g (l4Off f + 1)
          ∧ byteAt f (l4Off f + 2) = byteAt g (l4Off f + 2)
          ∧ byteAt f (l4Off f + 3) = byteAt g (l4Off f + 3))
    ∧ (ipProto f = 17 →
        byteAt f (l4Off f + 2) = byteAt g (l4Off f + 2)
          ∧ byteAt f (l4Off f + 3) = byteAt g (l4Off f + 3)
          ∧ byteAt f (vxlanOff f + 4) = byteAt g (vxlanOff f + 4)
          ∧ byteAt f (vxlanOff f + 5) = byteAt g (vxlanOff f + 5)
          ∧ byteAt f (vxlanOff f + 6) = byteAt g (vxlanOff f + 6))

instance (f g : Frame) : Decidable (sameSteeringFields f g) := by
  unfold sameSteeringFields; infer_instance

/-- A non-first IP fragment (fragment offset 185) with protocol TCP from
10.0.0.1 whose payload starts with the bytes 0, 179, 0, 179; it differs from
`exBgpFrame` in the MAC addresses, the version nibble, the type of service,
the total length, the identification, the fragment field, the TTL, the
checksum, the destination address, the option bytes and the bytes after the
port position. -/
def exBgpFragment : Frame :=
  [0x02, 0, 0, 0, 0, 0x07, 0x02, 0, 0, 0, 0, 0x09, 0x08, 0x00]
    ++ [0x56, 0xff, 0x05, 0xdc, 0x12, 0x34, 0x00, 0xb9, 1, 6, 0xab, 0xcd, 10, 0, 0, 1,
        192, 168, 1, 1, 9, 9, 9, 9]
    ++ [0, 179, 0, 179, 7, 7, 7, 7, 7, 7, 7, 7, 7, 7, 7, 7, 7, 7, 7, 7]

/-! ## Example frames and tables -/

/-- A 14-byte Ethernet header with the given two EtherType bytes. -/
def exEth (ty_hi ty_lo : Byte) : Frame :=
  [0xff, 0xff, 0xff, 0xff, 0xff, 0xff, 0x02, 0, 0, 0, 0, 0x01, ty_hi, ty_lo]

/-- An IPv4 header with IHL 6 (one 4-byte option word), the given protocol
and source address `10.0.0.s`, destination `10.0.0.1`. -/
def exIp6 (proto s : Byte) : Frame :=
  [0x46, 0, 0, 64, 0, 0, 0, 0, 64, proto, 0, 0, 10, 0, 0, s, 10, 0, 0, 1, 1, 1, 1, 1]

/-- A 20-byte TCP header with the given port bytes. -/
def exTcp (sp_hi sp_lo dp_hi dp_lo : Byte) : Frame :=
  [sp_hi, sp_lo, dp_hi, dp_lo, 0, 0, 0, 1, 0, 0, 0, 0, 0x50, 0x02, 0xff, 0xff, 0, 0, 0, 0]

/-- An 8-byte UDP header with the given port bytes. -/
def exUdp (sp_hi sp_lo dp_hi dp_lo : Byte) : Frame :=
  [sp_hi, sp_lo, dp_hi, dp_lo, 0, 16, 0, 0]

/-- An ARP frame that ends right after the Ethernet header. -/
def exArpFrame : Frame := exEth 0x08 0x06

/-- A TCP segment from 10.0.0.1 with both ports 179. -/
def exBgpFrame : Frame := exEth 0x08 0x00 ++ exIp6 6 1 ++ exTcp 0 179 0 179

/-- A TCP segment to port 179 from 10.0.0.9 (destination 10.0.0.1). -/
def exBgpStranger : Frame := exEth 0x08 0x00 ++ exIp6 6 9 ++ exTcp 0xc0 0x01 0 179

/-- A BFD control packet (destination port 3784) from 10.0.0.1. -/
def exBfdFrame : Frame := exEth 0x08 0x00 ++ exIp6 17 1 ++ exUdp 0xc0 0x01 0x0e 0xc8

/-- A UDP packet from 10.0.0.1 with source port 3784 and destination port 53. -/
def exBfdSportFrame : Frame := exEth 0x08 0x00 ++ exIp6 17 1 ++ exUdp 0x0e 0xc8 0 53

/-- A VXLAN packet (destination port 4789) from 10.0.0.9 with VNI 500. -/
def exVxlanFrame : Frame :=
  exEth 0x08 0x00 ++ exIp6 17 9 ++ exUdp 0xc0 0x01 0x12 0xb5 ++ [0x08, 0, 0, 0, 0, 0x01, 0xf4, 0]

/-- The packet `exVxlanFrame` (VNI 500) with other VXLAN header bytes 0-3
(flags 0xff, then 0xaa, 0xbb, 0xcc) and reserved byte 7 set to 0x77. -/
def exVxlanReserved : Frame :=
  exEth 0x08 0x00 ++ exIp6 17 9 ++ exUdp 0xc0 0x01 0x12 0xb5
    ++ [0xff, 0xaa, 0xbb, 0xcc, 0, 0x01, 0xf4, 0x77]

/-- An IPv4 frame whose header declares IHL 4. -/
def exShortIhl : Frame :=
  exEth 0x08 0x00 ++ [0x44, 0, 0, 64, 0, 0, 0, 0, 64, 6, 0, 0, 10, 0, 0, 1, 10, 0, 0, 2]
    ++ exTcp 0 179 0 179

/-- Neighbor table holding 10.0.0.1, as a little-endian host keys it. -/
def exNeighbors : BpfHash := [(host32 .little 10 0 0 1, 1)]

/-- VNI table holding VNI 500. -/
def exVnis : BpfHash := [(500, 1)]

/-! ## Lemmas on loads and byte order -/

theorem byteAt_lt (skb : Frame) (i : Nat) : byteAt skb i < 256 := by
  unfold byteAt load8
  cases h : skb[i]? with
  | none => simp
  | some b => simp

theorem load8_eq {skb : Frame} {i : Nat} (h : i < skb.length) :
    load8 skb i = some (byteAt skb i) := by
  unfold byteAt load8
  simp [List.getElem?_eq_getElem h]

theorem load16_eq (o : ByteOrder) {skb : Frame} {i : Nat} (h : i + 1 < skb.length) :
    load16 o skb i = some (host16 o (byteAt skb i) (byteAt skb (i + 1))) := by
  unfold load16
  rw [load8_eq (by omega : i < skb.length), load8_eq h]
  rfl

theorem load32_eq (o : ByteOrder) {skb : Frame} {i : Nat} (h : i + 3 < skb.length) :
    load32 o skb i = some (host32 o (byteAt skb i) (byteAt skb (i + 1))
      (byteAt skb (i + 2)) (byteAt skb (i + 3))) := by
  unfold load32
  rw [load8_eq (by omega : i < skb.length), load8_eq (by omega : i + 1 < skb.length),
    load8_eq (by omega : i + 2 < skb.length), load8_eq h]
  rfl

theorem ntohs_host16 (o : ByteOrder) {b0 b1 : Nat} (h0 : b0 < 256) (h1 : b1 < 256) :
    bpf_ntohs o (host16 o b0 b1) = 256 * b0 + b1 := by
  cases o
  · simp only [bpf_ntohs, host16, bswap16]; omega
  · simp only [bpf_ntohs, host16]

theorem ntohl_host32 (o : ByteOrder) {b0 b1 b2 b3 : Nat} (h0 : b0 < 256) (h1 : b1 < 256)
    (h2 : b2 < 256) (h3 : b3 < 256) :
    bpf_ntohl o (host32 o b0 b1 b2 b3) = 16777216 * b0 + 65536 * b1 + 256 * b2 + b3 := by
  cases o
  · simp only [bpf_ntohl, host32, bswap32]; omega
  · simp only [bpf_ntohl, host32]

theorem ntohl_host32_shr (o : ByteOrder) {b0 b1 b2 b3 : Nat} (h0 : b0 < 256) (h1 : b1 < 256)
    (h2 : b2 < 256) (h3 : b3 < 256) :
    bpf_ntohl o (host32 o b0 b1 b2 b3) >>> 8 = 65536 * b0 + 256 * b1 + b2 := by
  rw [ntohl_host32 o h0 h1 h2 h3, Nat.shiftRight_eq_div_pow]
  omega

theorem lookup_isSome_iff (m : BpfHash) (k : Nat) :
    (bpf_map_lookup_elem m k).isSome = true ↔ hasKey m k := by
  unfold bpf_map_lookup_elem hasKey
  induction m with
  | nil => simp
  | cons e m ih =>
    obtain ⟨a, b⟩ := e
    by_cases hk : k = a
    · subst hk; simp [List.lookup]
    · have : (k == a) = false := by simpa using hk
      simp [List.lookup, this, ih, hk]

/-! ## Lemmas on the table operations -/

theorem hasKey_cons (m : BpfHash) (e : Nat × Nat) (k : Nat) :
    hasKey (e :: m) k ↔ k = e.1 ∨ hasKey m k := by
  simp [hasKey]

theorem hasKey_table_remove (m : BpfHash) (key k : Nat) :
    hasKey (table_remove m key) k ↔ hasKey m k ∧ k ≠ key := by
  unfold hasKey table_remove
  simp only [List.mem_map, List.mem_filter, bne_iff_ne, ne_eq]
  constructor
  · rintro ⟨e, ⟨he, hne⟩, rfl⟩
    exact ⟨⟨e, he, rfl⟩, hne⟩
  · rintro ⟨⟨e, he, rfl⟩, hne⟩
    exact ⟨e, ⟨he, hne⟩, rfl⟩

theorem hasKey_table_upsert (max_entries : Nat) (m : BpfHash) (key k : Nat) :
    hasKey (table_upsert max_entries m key).2 k
      ↔ hasKey m k ∨ (k = key ∧ (table_upsert max_entries m key).1 = TableResult.ok) := by
  unfold table_upsert
  by_cases hk : hasKey m key
  · simp only [hk, if_true]
    constructor
    · exact Or.inl
    · rintro (h | ⟨rfl, _⟩)
      · exact h
      · exact hk
  · by_cases hl : m.length < max_entries
    · simp only [hk, hl, if_true, if_false, hasKey_cons]
      constructor
      · rintro (h | h)
        · exact Or.inr ⟨h, trivial⟩
        · exact Or.inl h
      · rintro (h | ⟨h, _⟩)
        · exact Or.inr h
        · exact Or.inl h
    · simp [hk, hl]

theorem table_upsert_length (max_entries : Nat) (m : BpfHash) (key : Nat)
    (h : m.length ≤ max_entries) : (table_upsert max_entries m key).2.length ≤ max_entries := by
  unfold table_upsert
  split_ifs with h1 h2
  · exact h
  · simpa using h2
  · exact h

theorem table_upsert_full (max_entries : Nat) (m : BpfHash) (key : Nat)
    (hnew : ¬ hasKey m key) (hfull : max_entries ≤ m.length) :
    table_upsert max_entries m key = (TableResult.capacity_error, m) := by
  unfold table_upsert
  have : ¬ m.length < max_entries := by omega
  simp [hnew, this]

/-! ## The program computes its closed form -/

theorem nic_ingress_null (o : ByteOrder) (config_map : BpfArray) (neighbor_map vni_map : BpfHash)
    (skb : Frame) (h : config_map[0]? = none) :
    nic_ingress o config_map neighbor_map vni_map skb = some Verdict.Pass := by
  simp [nic_ingress, bpf_array_lookup_elem, h]

theorem config_map_lookup_isSome (config_map : BpfArray)
    (h : config_map.length = CONFIG_MAX_ENTRIES) :
    ∃ t, bpf_array_lookup_elem config_map 0 = some t := by
  unfold CONFIG_MAX_ENTRIES at h
  match config_map, h with
  | [t], _ => exact ⟨t, rfl⟩

theorem nic_ingress_eq_closed (o : ByteOrder) (config_map : BpfArray) (t : Nat)
    (neighbor_map vni_map : BpfHash) (skb : Frame) (h : bindingSet config_map t) :
    nic_ingress o config_map neighbor_map vni_map skb
      = some (nic_ingress_closed o t neighbor_map vni_map skb) := by
  unfold bindingSet at h
  unfold nic_ingress nic_ingress_closed
  simp only [bpf_array_lookup_elem, h, sizeof_ethhdr, ethhdr_h_proto, sizeof_iphdr, iphdr_ihl,
    iphdr_protocol, iphdr_saddr, sizeof_tcphdr, tcphdr_source, tcphdr_dest, sizeof_udphdr,
    udphdr_dest, ETH_P_ARP, ETH_P_IP, IPPROTO_TCP, IPPROTO_UDP, BGP_PORT, BFD_CTRL_PORT,
    BFD_ECHO_PORT, VXLAN_PORT, Nat.zero_add, Nat.add_zero, Nat.reduceAdd]
  by_cases h14 : skb.length < 14
  · simp [h14]
  have hp : load16 o skb 12 = some (host16 o (byteAt skb 12) (byteAt skb 13)) :=
    load16_eq o (by omega)
  have hty : bpf_ntohs o (host16 o (byteAt skb 12) (byteAt skb 13)) = etherType skb :=
    ntohs_host16 o (byteAt_lt skb 12) (byteAt_lt skb 13)
  simp only [hp, Option.some_bind, hty, h14, if_false, show ¬ (14 > skb.length) by omega]
  by_cases harp : etherType skb = 2054
  · simp [harp]
  by_cases hip : etherType skb = 2048
  swap
  · simp [harp, hip]
  by_cases h34 : skb.length < 34
  · simp [harp, hip, h34]
  have hb14 : load8 skb 14 = some (byteAt skb 14) := load8_eq (by omega)
  have hb23 : load8 skb 23 = some (byteAt skb 23) := load8_eq (by omega)
  have hsrc : load32 o skb 26 = some (saddrKey o skb) := load32_eq o (by omega)
  have hl4 : 14 + iphdr_get_ihl (byteAt skb 14) * 4 = l4Off skb := by
    unfold l4Off ipIhl iphdr_get_ihl; omega
  have hihl : iphdr_get_ihl (byteAt skb 14) * 4 < 20 ↔ ipIhl skb < 5 := by
    unfold ipIhl iphdr_get_ihl; omega
  simp only [harp, hip, h34, if_false, show ¬ (14 + 20 > skb.length) by omega, ne_eq,
    not_true_eq_false, hb14, hb23, hsrc, Option.some_bind, hl4, hihl, gt_iff_lt]
  by_cases h5 : ipIhl skb < 5
  · simp [h5]
  by_cases hlen : skb.length < l4Off skb
  · simp [h5, hlen]
  simp only [h5, hlen, if_false]
  have hbl : ∀ i, byteAt skb i < 256 := byteAt_lt skb
  have hport : ∀ i, bpf_ntohs o (host16 o (byteAt skb i) (byteAt skb (i + 1))) = be16At skb i :=
    fun i => ntohs_host16 o (hbl i) (hbl (i + 1))
  have hNk := lookup_isSome_iff neighbor_map (saddrKey o skb)
  by_cases htcp : ipProto skb = 6
  · have htcp2 : byteAt skb 23 = 6 := htcp
    simp only [htcp, htcp2, if_true]
    by_cases ht : skb.length < l4Off skb + 20
    · simp [ht]
    have hs : load16 o skb (l4Off skb) = some (host16 o (byteAt skb (l4Off skb))
        (byteAt skb (l4Off skb + 1))) := load16_eq o (by omega)
    have hd : load16 o skb (l4Off skb + 2) = some (host16 o (byteAt skb (l4Off skb + 2))
        (byteAt skb (l4Off skb + 2 + 1))) := load16_eq o (by omega)
    simp only [ht, if_false, hs, hd, Option.some_bind, hport, hNk, tcpSport, l4Dport]
    split_ifs <;> rfl
  have htcp2 : ¬ byteAt skb 23 = 6 := htcp
  by_cases hudp : ipProto skb = 17
  swap
  · have hudp2 : ¬ byteAt skb 23 = 17 := hudp
    simp [htcp, htcp2, hudp, hudp2]
  have hudp2 : byteAt skb 23 = 17 := hudp
  simp only [htcp, htcp2, hudp, hudp2, if_true, if_false]
  by_cases hu : skb.length < l4Off skb + 8
  · simp [hu]
  have hd : load16 o skb (l4Off skb + 2) = some (host16 o (byteAt skb (l4Off skb + 2))
      (byteAt skb (l4Off skb + 2 + 1))) := load16_eq o (by omega)
  simp only [hu, if_false, hd, Option.some_bind, hport, hNk]
  show _ = some (if l4Dport skb = 3784 ∨ l4Dport skb = 4784 then _ else _)
  by_cases hbfd : l4Dport skb = 3784 ∨ l4Dport skb = 4784
  · have hbfd2 : be16At skb (l4Off skb + 2) = 3784 ∨ be16At skb (l4Off skb + 2) = 4784 := hbfd
    simp only [hbfd, hbfd2, if_true]
    split_ifs <;> first | rfl | omega
  have hbfd2 : ¬ (be16At skb (l4Off skb + 2) = 3784 ∨ be16At skb (l4Off skb + 2) = 4784) := hbfd
  simp only [hbfd, hbfd2, if_false]
  by_cases hvx : l4Dport skb = 4789
  swap
  · have hvx2 : ¬ be16At skb (l4Off skb + 2) = 4789 := hvx
    simp [hvx, hvx2]
  have hvx2 : be16At skb (l4Off skb + 2) = 4789 := hvx
  simp only [hvx, hvx2, if_true]
  by_cases hv : skb.length < vxlanOff skb + 8
  · have hv2 : skb.length < l4Off skb + 8 + 8 := hv
    simp [hv, hv2]
  have hv2 : ¬ skb.length < l4Off skb + 8 + 8 := hv
  have hw : load32 o skb (l4Off skb + 8 + 4) = some (host32 o (byteAt skb (l4Off skb + 8 + 4))
      (byteAt skb (l4Off skb + 8 + 4 + 1)) (byteAt skb (l4Off skb + 8 + 4 + 2))
      (byteAt skb (l4Off skb + 8 + 4 + 3))) := load32_eq o (by omega)
  have hvni : bpf_ntohl o (host32 o (byteAt skb (l4Off skb + 8 + 4))
      (byteAt skb (l4Off skb + 8 + 4 + 1)) (byteAt skb (l4Off skb + 8 + 4 + 2))
      (byteAt skb (l4Off skb + 8 + 4 + 3))) >>> 8 = vxlanVni skb :=
    ntohl_host32_shr o (hbl _) (hbl _) (hbl _) (hbl _)
  have hVk := lookup_isSome_iff vni_map (vxlanVni skb)
  simp only [hv, hv2, if_false, hw, Option.some_bind, hvni, hVk]
  split_ifs <;> first | rfl | omega

theorem targetsOnly_ite (t : Nat) (c : Prop) [Decidable c] (a b : Verdict)
    (ha : targetsOnly t a) (hb : targetsOnly t b) : targetsOnly t (if c then a else b) := by
  split
  · exact ha
  · exact hb

theorem nic_ingress_closed_cases (o : ByteOrder) (t : Nat) (neighbor_map vni_map : BpfHash)
    (skb : Frame) : targetsOnly t (nic_ingress_closed o t neighbor_map vni_map skb) := by
  unfold nic_ingress_closed
  repeat' apply targetsOnly_ite
  all_goals simp [targetsOnly]

theorem nic_ingress_closed_redirect_iff (o : ByteOrder) (t : Nat)
    (neighbor_map vni_map : BpfHash) (skb : Frame) :
    nic_ingress_closed o t neighbor_map vni_map skb = Verdict.Redirect t
      ↔ isSteered o neighbor_map vni_map skb := by
  unfold nic_ingress_closed isSteered
  have hv : vxlanOff skb = l4Off skb + 8 := rfl
  have hP : ∀ {R : Prop}, ¬ R → (Verdict.Pass = Verdict.Redirect t ↔ R) :=
    fun h => iff_of_false (by simp) h
  have hR : ∀ {R : Prop}, R → (Verdict.Redirect t = Verdict.Redirect t ↔ R) :=
    fun h => iff_of_true rfl h
  by_cases h14 : skb.length < 14
  · rw [if_pos h14]
    exact hP (by rintro ⟨-, h, -⟩; omega)
  rw [if_neg h14]
  by_cases harp : etherType skb = 2054
  · rw [if_pos harp]
    exact iff_of_false (by simp) (by rintro ⟨h, -⟩; omega)
  rw [if_neg harp]
  by_cases hip : etherType skb = 2048
  swap
  · rw [if_pos hip]
    exact hP (fun h => hip h.1)
  rw [if_neg (not_not.mpr hip)]
  by_cases h34 : skb.length < 34
  · rw [if_pos h34]
    exact hP (by rintro ⟨-, h, -⟩; omega)
  rw [if_neg h34]
  by_cases h5 : ipIhl skb < 5
  · rw [if_pos h5]
    exact hP (by rintro ⟨-, -, h, -⟩; omega)
  rw [if_neg h5]
  by_cases hl : skb.length < l4Off skb
  · rw [if_pos hl]
    exact hP (by rintro ⟨-, -, -, h, -⟩; omega)
  rw [if_neg hl]
  by_cases htcp : ipProto skb = 6
  · rw [if_pos htcp]
    by_cases ht : skb.length < l4Off skb + 20
    · rw [if_pos ht]
      exact hP (by rintro ⟨-, -, -, -, ⟨-, h, -⟩ | ⟨h, -⟩ | ⟨h, -⟩⟩ <;> omega)
    rw [if_neg ht]
    by_cases hc : (tcpSport skb = 179 ∨ l4Dport skb = 179) ∧ hasKey neighbor_map (saddrKey o skb)
    · rw [if_pos hc]
      exact hR ⟨hip, by omega, by omega, by omega, Or.inl ⟨htcp, by omega, hc.1, hc.2⟩⟩
    · rw [if_neg hc]
      refine hP ?_
      rintro ⟨-, -, -, -, ⟨-, -, h1, h2⟩ | ⟨h, -⟩ | ⟨h, -⟩⟩
      · exact hc ⟨h1, h2⟩
      · omega
      · omega
  rw [if_neg htcp]
  by_cases hudp : ipProto skb = 17
  swap
  · rw [if_neg hudp]
    refine hP ?_
    rintro ⟨-, -, -, -, ⟨h, -⟩ | ⟨h, -⟩ | ⟨h, -⟩⟩
    · exact htcp h
    · exact hudp h
    · exact hudp h
  rw [if_pos hudp]
  by_cases hu : skb.length < l4Off skb + 8
  · rw [if_pos hu]
    refine hP ?_
    rintro ⟨-, -, -, -, ⟨h, -⟩ | ⟨-, h, -⟩ | ⟨-, -, h, -⟩⟩
    · exact htcp h
    · omega
    · omega
  rw [if_neg hu]
  by_cases hbfd : l4Dport skb = 3784 ∨ l4Dport skb = 4784
  · rw [if_pos hbfd]
    by_cases hk : hasKey neighbor_map (saddrKey o skb)
    · rw [if_pos hk]
      exact hR ⟨hip, by omega, by omega, by omega, Or.inr (Or.inl ⟨hudp, by omega, hbfd, hk⟩)⟩
    · rw [if_neg hk]
      refine hP ?_
      rintro ⟨-, -, -, -, ⟨h, -⟩ | ⟨-, -, -, h⟩ | ⟨-, h, -⟩⟩
      · exact htcp h
      · exact hk h
      · omega
  rw [if_neg hbfd]
  by_cases hvx : l4Dport skb = 4789
  swap
  · rw [if_neg hvx]
    refine hP ?_
    rintro ⟨-, -, -, -, ⟨h, -⟩ | ⟨-, -, h, -⟩ | ⟨-, h, -⟩⟩
    · exact htcp h
    · exact hbfd h
    · exact hvx h
  rw [if_pos hvx]
  by_cases hv8 : skb.length < vxlanOff skb + 8
  · rw [if_pos hv8]
    refine hP ?_
    rintro ⟨-, -, -, -, ⟨h, -⟩ | ⟨-, -, h, -⟩ | ⟨-, -, h, -⟩⟩
    · exact htcp h
    · exact hbfd h
    · omega
  rw [if_neg hv8]
  by_cases hk : hasKey vni_map (vxlanVni skb)
  · rw [if_pos hk]
    exact hR ⟨hip, by omega, by omega, by omega, Or.inr (Or.inr ⟨hudp, hvx, by omega, hk⟩)⟩
  · rw [if_neg hk]
    refine hP ?_
    rintro ⟨-, -, -, -, ⟨h, -⟩ | ⟨-, -, h, -⟩ | ⟨-, -, -, h⟩⟩
    · exact htcp h
    · exact hbfd h
    · exact hk h

theorem passOrRedirect_ite (t : Nat) (c : Prop) [Decidable c] (a b : Verdict)
    (ha : passOrRedirect t a) (hb : passOrRedirect t b) :
    passOrRedirect t (if c then a else b) := by
  split
  · exact ha
  · exact hb

theorem nic_ingress_closed_not_arp (o : ByteOrder) (t : Nat) (neighbor_map vni_map : BpfHash)
    (skb : Frame) (h : ¬ isArp skb) :
    passOrRedirect t (nic_ingress_closed o t neighbor_map vni_map skb) := by
  unfold nic_ingress_closed
  by_cases h14 : skb.length < 14
  · rw [if_pos h14]
    exact Or.inl rfl
  have harp : ¬ etherType skb = 2054 := fun he => h ⟨by omega, he⟩
  rw [if_neg h14, if_neg harp]
  repeat' apply passOrRedirect_ite
  all_goals simp [passOrRedirect]

theorem nic_ingress_closed_arp (o : ByteOrder) (t : Nat) (neighbor_map vni_map : BpfHash)
    (skb : Frame) (h : isArp skb) :
    nic_ingress_closed o t neighbor_map vni_map skb = Verdict.CloneRedirect t := by
  unfold nic_ingress_closed
  have h14 : ¬ skb.length < 14 := by have := h.1; omega
  rw [if_neg h14, if_pos h.2]

theorem nic_ingress_closed_eq (o : ByteOrder) (t : Nat) (neighbor_map vni_map : BpfHash)
    (skb : Frame) :
    nic_ingress_closed o t neighbor_map vni_map skb
      = if isArp skb then Verdict.CloneRedirect t
        else if isSteered o neighbor_map vni_map skb then Verdict.Redirect t
        else Verdict.Pass := by
  by_cases ha : isArp skb
  · rw [if_pos ha]
    exact nic_ingress_closed_arp o t neighbor_map vni_map skb ha
  rw [if_neg ha]
  by_cases hs : isSteered o neighbor_map vni_map skb
  · rw [if_pos hs]
    exact (nic_ingress_closed_redirect_iff o t neighbor_map vni_map skb).2 hs
  rw [if_neg hs]
  rcases nic_ingress_closed_not_arp o t neighbor_map vni_map skb ha with h | h
  · exact h
  · exact absurd ((nic_ingress_closed_redirect_iff o t neighbor_map vni_map skb).1 h) hs

theorem vxlanVni_lt (skb : Frame) : vxlanVni skb < 16777216 := by
  unfold vxlanVni
  have h4 := byteAt_lt skb (vxlanOff skb + 4)
  have h5 := byteAt_lt skb (vxlanOff skb + 5)
  have h6 := byteAt_lt skb (vxlanOff skb + 6)
  omega

theorem isSteered_congr_vni (o : ByteOrder) (neighbor_map vni_map vni_map2 : BpfHash)
    (skb : Frame) (h : hasKey vni_map (vxlanVni skb) ↔ hasKey vni_map2 (vxlanVni skb)) :
    isSteered o neighbor_map vni_map skb ↔ isSteered o neighbor_map vni_map2 skb := by
  unfold isSteered
  rw [h]

theorem nic_ingress_closed_congr (o : ByteOrder) (t : Nat) (neighbor_map vni_map : BpfHash)
    (f g : Frame) (hlen : f.length = g.length) (h : sameSteeringFields f g) :
    nic_ingress_closed o t neighbor_map vni_map f
      = nic_ingress_closed o t neighbor_map vni_map g := by
  obtain ⟨h12, h13, h14, h23, h26, h27, h28, h29, htcp, hudp⟩ := h
  have hE : etherType g = etherType f := by
    unfold etherType be16At
    rw [h12, h13]
  have hI : ipIhl g = ipIhl f := h14.symm
  have hP : ipProto g = ipProto f := h23.symm
  have hL : l4Off g = l4Off f := by
    unfold l4Off
    rw [hI]
  have hV : vxlanOff g = vxlanOff f := by
    unfold vxlanOff
    rw [hL]
  have hS : saddrKey o g = saddrKey o f := by
    unfold saddrKey
    rw [h26, h27, h28, h29]
  have hlen2 : g.length = f.length := hlen.symm
  unfold nic_ingress_closed
  rw [hE, hI, hP, hL, hV, hS, hlen2]
  by_cases hp6 : ipProto f = 6
  · obtain ⟨e0, e1, e2, e3⟩ := htcp hp6
    have hs : tcpSport g = tcpSport f := by
      unfold tcpSport be16At
      rw [hL, e0, e1]
    have hd : l4Dport g = l4Dport f := by
      unfold l4Dport be16At
      rw [hL, e2, e3]
    rw [hs, hd]
    simp only [hp6, if_true]
  · simp only [hp6, if_false]
    by_cases hp17 : ipProto f = 17
    · obtain ⟨e2, e3, e4, e5, e6⟩ := hudp hp17
      have hd : l4Dport g = l4Dport f := by
        unfold l4Dport be16At
        rw [hL, e2, e3]
      have hv : vxlanVni g = vxlanVni f := by
        unfold vxlanVni
        rw [hV, e4, e5, e6]
      rw [hd, hv]
    · simp only [hp17, if_false]

theorem isSteered_mono (o : ByteOrder) (nm nm2 vm vm2 : BpfHash) (skb : Frame)
    (hn : ∀ k, hasKey nm k → hasKey nm2 k) (hv : ∀ k, hasKey vm k → hasKey vm2 k)
    (h : isSteered o nm vm skb) : isSteered o nm2 vm2 skb := by
  obtain ⟨he, h34, h5, hl, hc⟩ := h
  refine ⟨he, h34, h5, hl, ?_⟩
  rcases hc with ⟨a, b, c, d⟩ | ⟨a, b, c, d⟩ | ⟨a, b, c, d⟩
  · exact Or.inl ⟨a, b, c, hn _ d⟩
  · exact Or.inr (Or.inl ⟨a, b, c, hn _ d⟩)
  · exact Or.inr (Or.inr ⟨a, b, c, hv _ d⟩)

/-! ## Ingress classifier: steering rules -/

/-- Claim C1: with the binding set to `t`, an IPv4 frame (EtherType 0x0800)
with IHL at least 5, protocol TCP, a full 20-byte TCP header at offset
14 + 4 * IHL, source or destination port 179 and a source address that has
an entry in the neighbor map gets the verdict `Redirect t`. -/
theorem nic_ingress_bgp_redirect (o : ByteOrder) (config_map : BpfArray) (t : Nat)
    (neighbor_map vni_map : BpfHash) (skb : Frame)
    (hset : bindingSet config_map t)
    (hip : etherType skb = 0x0800)
    (hihl : 5 ≤ ipIhl skb)
    (htcp : ipProto skb = 6)
    (hlen : l4Off skb + 20 ≤ skb.length)
    (hport : tcpSport skb = 179 ∨ l4Dport skb = 179)
    (hsrc : hasKey neighbor_map (saddrKey o skb)) :
    nic_ingress o config_map neighbor_map vni_map skb = some (Verdict.Redirect t) := by
  rw [nic_ingress_eq_closed o config_map t neighbor_map vni_map skb hset]
  have hl : l4Off skb = 14 + 4 * ipIhl skb := rfl
  have h14 : ¬ skb.length < 14 := by omega
  have h34 : ¬ skb.length < 34 := by omega
  have h5 : ¬ ipIhl skb < 5 := by omega
  have h4 : ¬ skb.length < l4Off skb := by omega
  have h20 : ¬ skb.length < l4Off skb + 20 := by omega
  simp [nic_ingress_closed, h14, hip, h34, h5, h4, htcp, h20, hport, hsrc]

/-- Claim C1, at a concrete frame: IHL 6, both ports 179, source 10.0.0.1. -/
theorem nic_ingress_bgp_redirect_witness :
    nic_ingress .little [42] exNeighbors [] exBgpFrame = some (Verdict.Redirect 42) :=
  nic_ingress_bgp_redirect .little [42] 42 exNeighbors [] exBgpFrame
    (by decide) (by decide) (by decide) (by decide) (by decide) (by decide) (by decide)

/-- Claim C2: an IPv4 frame with protocol TCP gets `Pass` when neither TCP
port is 179, and also when its source address has no entry in the neighbor
map; this holds for every binding, every VNI map and every destination
address. -/
theorem nic_ingress_tcp_pass (o : ByteOrder) (config_map : BpfArray)
    (neighbor_map vni_map : BpfHash) (skb : Frame)
    (hip : etherType skb = 0x0800)
    (htcp : ipProto skb = 6)
    (h : ¬ (tcpSport skb = 179 ∨ l4Dport skb = 179) ∨ ¬ hasKey neighbor_map (saddrKey o skb)) :
    nic_ingress o config_map neighbor_map vni_map skb = some Verdict.Pass := by
  cases hcfg : config_map[0]? with
  | none => exact nic_ingress_null o config_map neighbor_map vni_map skb hcfg
  | some t =>
    rw [nic_ingress_eq_closed o config_map t neighbor_map vni_map skb hcfg]
    simp only [nic_ingress_closed, hip, htcp]
    split_ifs <;> first | rfl | (exfalso; tauto)

/-- Claim C2, at a concrete frame: destination port 179 and destination
address 10.0.0.1 (a neighbor), but source 10.0.0.9, with VNI 500 configured. -/
theorem nic_ingress_tcp_pass_witness :
    nic_ingress .little [42] exNeighbors exVnis exBgpStranger = some Verdict.Pass :=
  nic_ingress_tcp_pass .little [42] exNeighbors exVnis exBgpStranger
    (by decide) (by decide) (Or.inr (by decide))

/-- Claim C3: with the binding set to `t`, every frame of at least 14 bytes
whose EtherType is 0x0806 gets `CloneRedirect t`, whatever follows the
Ethernet header and whatever the two maps hold. -/
theorem nic_ingress_arp_clone (o : ByteOrder) (config_map : BpfArray) (t : Nat)
    (neighbor_map vni_map : BpfHash) (skb : Frame)
    (hset : bindingSet config_map t)
    (hlen : 14 ≤ skb.length)
    (harp : etherType skb = 0x0806) :
    nic_ingress o config_map neighbor_map vni_map skb = some (Verdict.CloneRedirect t) := by
  rw [nic_ingress_eq_closed o config_map t neighbor_map vni_map skb hset]
  have h14 : ¬ skb.length < 14 := by omega
  simp [nic_ingress_closed, h14, harp]

/-- Claim C3, at a concrete frame: exactly 14 bytes, both maps empty. -/
theorem nic_ingress_arp_clone_witness :
    nic_ingress .big [42] [] [] exArpFrame = some (Verdict.CloneRedirect 42) :=
  nic_ingress_arp_clone .big [42] 42 [] [] exArpFrame (by decide) (by decide) (by decide)

/-- Claim C4: with the binding set to `t`, an IPv4 frame with IHL at least
5, protocol UDP, destination port 4789 and 8 bytes present after the 8-byte
UDP header gets `Redirect t` when the VNI (VXLAN header bytes 4, 5, 6,
big-endian) has an entry in the VNI map, and `Pass` when it has none; the
neighbor map and the source address play no part. -/
theorem nic_ingress_vxlan (o : ByteOrder) (config_map : BpfArray) (t : Nat)
    (neighbor_map vni_map : BpfHash) (skb : Frame)
    (hset : bindingSet config_map t)
    (hip : etherType skb = 0x0800)
    (hihl : 5 ≤ ipIhl skb)
    (hudp : ipProto skb = 17)
    (hport : l4Dport skb = 4789)
    (hlen : vxlanOff skb + 8 ≤ skb.length) :
    nic_ingress o config_map neighbor_map vni_map skb
      = some (if hasKey vni_map (vxlanVni skb) then Verdict.Redirect t else Verdict.Pass) := by
  rw [nic_ingress_eq_closed o config_map t neighbor_map vni_map skb hset]
  have hv : vxlanOff skb = 14 + 4 * ipIhl skb + 8 := rfl
  have hl : l4Off skb = 14 + 4 * ipIhl skb := rfl
  have h14 : ¬ skb.length < 14 := by omega
  have h34 : ¬ skb.length < 34 := by omega
  have h5 : ¬ ipIhl skb < 5 := by omega
  have h4 : ¬ skb.length < l4Off skb := by omega
  have h8 : ¬ skb.length < l4Off skb + 8 := by omega
  have h16 : ¬ skb.length < vxlanOff skb + 8 := by omega
  simp [nic_ingress_closed, h14, hip, h34, h5, h4, hudp, h8, hport, h16]

/-- Claim C4, at a concrete frame with VNI 500 from a non-neighbor: passed
when the VNI map is empty, redirected when it holds 500. -/
theorem nic_ingress_vxlan_witness :
    nic_ingress .little [42] exNeighbors [] exVxlanFrame = some Verdict.Pass
      ∧ nic_ingress .little [42] exNeighbors exVnis exVxlanFrame = some (Verdict.Redirect 42) :=
  ⟨nic_ingress_vxlan .little [42] 42 exNeighbors [] exVxlanFrame
      (by decide) (by decide) (by decide) (by decide) (by decide) (by decide),
   nic_ingress_vxlan .little [42] 42 exNeighbors exVnis exVxlanFrame
      (by decide) (by decide) (by decide) (by decide) (by decide) (by decide)⟩

/-- Claim C5: with the binding set to `t`, an IPv4 frame with IHL at least
5, protocol UDP and a full 8-byte UDP header gets, when its destination port
is 3784 or 4784, `Redirect t` if the source address has an entry in the
neighbor map and `Pass` if not; and when its destination port is none of
3784, 4784, 4789 it gets `Pass` whatever its source port is (3784 and 4784
included). -/
theorem nic_ingress_bfd (o : ByteOrder) (config_map : BpfArray) (t : Nat)
    (neighbor_map vni_map : BpfHash) (skb : Frame)
    (hset : bindingSet config_map t)
    (hip : etherType skb = 0x0800)
    (hihl : 5 ≤ ipIhl skb)
    (hudp : ipProto skb = 17)
    (hlen : l4Off skb + 8 ≤ skb.length) :
    ((l4Dport skb = 3784 ∨ l4Dport skb = 4784) →
        nic_ingress o config_map neighbor_map vni_map skb
          = some (if hasKey neighbor_map (saddrKey o skb) then Verdict.Redirect t
              else Verdict.Pass))
      ∧ ((l4Dport skb ≠ 3784 ∧ l4Dport skb ≠ 4784 ∧ l4Dport skb ≠ 4789) →
        nic_ingress o config_map neighbor_map vni_map skb = some Verdict.Pass) := by
  rw [nic_ingress_eq_closed o config_map t neighbor_map vni_map skb hset]
  have hl : l4Off skb = 14 + 4 * ipIhl skb := rfl
  have h14 : ¬ skb.length < 14 := by omega
  have h34 : ¬ skb.length < 34 := by omega
  have h5 : ¬ ipIhl skb < 5 := by omega
  have h4 : ¬ skb.length < l4Off skb := by omega
  have h8 : ¬ skb.length < l4Off skb + 8 := by omega
  constructor
  · intro hport
    simp [nic_ingress_closed, h14, hip, h34, h5, h4, hudp, h8, hport]
  · rintro ⟨h1, h2, h3⟩
    simp [nic_ingress_closed, h14, hip, h34, h5, h4, hudp, h8, h1, h2, h3]

/-- Claim C5, at concrete frames from 10.0.0.1: destination port 3784 is
redirected when 10.0.0.1 is a neighbor and passed when the neighbor map is
empty; source port 3784 with destination port 53 is passed. -/
theorem nic_ingress_bfd_witness :
    nic_ingress .little [42] exNeighbors [] exBfdFrame = some (Verdict.Redirect 42)
      ∧ nic_ingress .little [42] [] [] exBfdFrame = some Verdict.Pass
      ∧ udpSport exBfdSportFrame = 3784
      ∧ nic_ingress .little [42] exNeighbors [] exBfdSportFrame = some Verdict.Pass :=
  ⟨(nic_ingress_bfd .little [42] 42 exNeighbors [] exBfdFrame
      (by decide) (by decide) (by decide) (by decide) (by decide)).1 (by decide),
   (nic_ingress_bfd .little [42] 42 [] [] exBfdFrame
      (by decide) (by decide) (by decide) (by decide) (by decide)).1 (by decide),
   by decide,
   (nic_ingress_bfd .little [42] 42 exNeighbors [] exBfdSportFrame
      (by decide) (by decide) (by decide) (by decide) (by decide)).2 (by decide)⟩

/-! ## Egress forwarder -/

/-- On every frame `ul_host_ingress` redirects to the value `t` that slot 0
of its `config_map` holds; the frame is not read, and the verdict is never
a `CloneRedirect`. -/
theorem ul_host_ingress_set (config_map : BpfArray) (skb : Frame) :
    (∀ t, bindingSet config_map t → ul_host_ingress config_map skb = some (Verdict.Redirect t))
      ∧ (∀ skb2 : Frame, ul_host_ingress config_map skb2 = ul_host_ingress config_map skb)
      ∧ (∀ t, ul_host_ingress config_map skb ≠ some (Verdict.CloneRedirect t)) := by
  refine ⟨?_, ?_, ?_⟩
  · intro t h
    unfold bindingSet at h
    simp [ul_host_ingress, bpf_array_lookup_elem, h]
  · intro skb2
    rfl
  · intro t
    simp only [ul_host_ingress]
    cases bpf_array_lookup_elem config_map 0 <;> simp

/-- Claim C6, where the code departs from it: with the binding unset, that
is with the one-entry `config_map` as created and never written, the lookup
of slot 0 is not NULL, and `ul_host_ingress` returns `Redirect 0` for every
frame (the empty frame and a BGP segment among them), not `Pass`. -/
theorem ul_host_ingress_unset_redirects :
    bindingUnset (bpf_array_create CONFIG_MAX_ENTRIES)
      ∧ bpf_array_lookup_elem (bpf_array_create CONFIG_MAX_ENTRIES) 0 = some 0
      ∧ ul_host_ingress (bpf_array_create CONFIG_MAX_ENTRIES) [] = some (Verdict.Redirect 0)
      ∧ ul_host_ingress (bpf_array_create CONFIG_MAX_ENTRIES) exBgpFrame
          = some (Verdict.Redirect 0)
      ∧ ∀ skb : Frame,
          ul_host_ingress (bpf_array_create CONFIG_MAX_ENTRIES) skb ≠ some Verdict.Pass := by
  refine ⟨rfl, rfl, rfl, rfl, ?_⟩
  intro skb
  simp [ul_host_ingress, bpf_array_lookup_elem, bpf_array_create, CONFIG_MAX_ENTRIES]

/-! ## Ingress classifier: failing open -/

/-- Claim C7, where the code departs from it: with the binding unset, that
is with the one-entry `config_map` as created and never written, the lookup
of slot 0 is not NULL and `nic_ingress` does not return early: on either
byte order an ARP frame gets `CloneRedirect 0`, and a BGP segment from a
neighbor, a BFD packet from a neighbor and a VXLAN packet with a configured
VNI get `Redirect 0`, not `Pass`. -/
theorem nic_ingress_unset_steers :
    bindingUnset (bpf_array_create CONFIG_MAX_ENTRIES)
      ∧ bpf_array_lookup_elem (bpf_array_create CONFIG_MAX_ENTRIES) 0 = some 0
      ∧ nic_ingress .little (bpf_array_create CONFIG_MAX_ENTRIES) [] [] exArpFrame
          = some (Verdict.CloneRedirect 0)
      ∧ nic_ingress .big (bpf_array_create CONFIG_MAX_ENTRIES) [] [] exArpFrame
          = some (Verdict.CloneRedirect 0)
      ∧ nic_ingress .little (bpf_array_create CONFIG_MAX_ENTRIES) exNeighbors exVnis exBgpFrame
          = some (Verdict.Redirect 0)
      ∧ nic_ingress .little (bpf_array_create CONFIG_MAX_ENTRIES) exNeighbors exVnis exBfdFrame
          = some (Verdict.Redirect 0)
      ∧ nic_ingress .little (bpf_array_create CONFIG_MAX_ENTRIES) exNeighbors exVnis exVxlanFrame
          = some (Verdict.Redirect 0) := by
  decide

/-- Claim C8: for every frame of every length, every byte order, binding and
map content, `nic_ingress` returns exactly one verdict: no read of packet
memory on any path is at or past `data_end` (such a read would make the
result `none`). -/
theorem nic_ingress_in_bounds (o : ByteOrder) (config_map : BpfArray)
    (neighbor_map vni_map : BpfHash) (skb : Frame) :
    ∃! v, nic_ingress o config_map neighbor_map vni_map skb = some v := by
  have hex : ∃ v, nic_ingress o config_map neighbor_map vni_map skb = some v := by
    cases hcfg : config_map[0]? with
    | none => exact ⟨_, nic_ingress_null o config_map neighbor_map vni_map skb hcfg⟩
    | some t => exact ⟨_, nic_ingress_eq_closed o config_map t neighbor_map vni_map skb hcfg⟩
  obtain ⟨v, hv⟩ := hex
  refine ⟨v, hv, ?_⟩
  intro w hw
  rw [hv] at hw
  exact (Option.some.inj hw).symm

/-- Claim C9: a frame shorter than 14 bytes gets `Pass`, for every binding
and all map contents. -/
theorem nic_ingress_short_pass (o : ByteOrder) (config_map : BpfArray)
    (neighbor_map vni_map : BpfHash) (skb : Frame)
    (hlen : skb.length < 14) :
    nic_ingress o config_map neighbor_map vni_map skb = some Verdict.Pass := by
  cases hcfg : config_map[0]? with
  | none => exact nic_ingress_null o config_map neighbor_map vni_map skb hcfg
  | some t =>
    rw [nic_ingress_eq_closed o config_map t neighbor_map vni_map skb hcfg]
    simp [nic_ingress_closed, hlen]

/-- Claim C9, at a concrete frame: the first 13 bytes of an ARP frame. -/
theorem nic_ingress_short_pass_witness :
    nic_ingress .little [42] exNeighbors exVnis (exArpFrame.take 13) = some Verdict.Pass :=
  nic_ingress_short_pass .little [42] exNeighbors exVnis (exArpFrame.take 13) (by decide)

/-- Claim C10: a frame with EtherType 0x0800 gets `Pass` when its IHL is
below 5, when it holds fewer than 14 + 4 * IHL bytes, and when it holds
fewer than 34 bytes, whatever its protocol, ports and addresses and the maps
are. -/
theorem nic_ingress_bad_iphdr_pass (o : ByteOrder) (config_map : BpfArray)
    (neighbor_map vni_map : BpfHash) (skb : Frame)
    (hip : etherType skb = 0x0800)
    (h : ipIhl skb < 5 ∨ skb.length < 14 + 4 * ipIhl skb ∨ skb.length < 34) :
    nic_ingress o config_map neighbor_map vni_map skb = some Verdict.Pass := by
  cases hcfg : config_map[0]? with
  | none => exact nic_ingress_null o config_map neighbor_map vni_map skb hcfg
  | some t =>
    rw [nic_ingress_eq_closed o config_map t neighbor_map vni_map skb hcfg]
    rcases h with h | h | h
    · simp [nic_ingress_closed, hip, h]
    · have h2 : skb.length < l4Off skb := h
      simp [nic_ingress_closed, hip, h2]
    · simp [nic_ingress_closed, hip, h]

/-- Claim C10, at concrete frames: a BGP segment from a neighbor whose IP
header declares IHL 4, and one with IHL 6 cut to 36 bytes. -/
theorem nic_ingress_bad_iphdr_pass_witness :
    nic_ingress .little [42] exNeighbors exVnis exShortIhl = some Verdict.Pass
      ∧ nic_ingress .little [42] exNeighbors exVnis (exBgpFrame.take 36) = some Verdict.Pass :=
  ⟨nic_ingress_bad_iphdr_pass .little [42] exNeighbors exVnis exShortIhl
      (by decide) (Or.inl (by decide)),
   nic_ingress_bad_iphdr_pass .little [42] exNeighbors exVnis (exBgpFrame.take 36)
      (by decide) (Or.inr (Or.inl (by decide)))⟩

/-- Claim C11: an IPv4 frame gets `Pass`, for every binding and all map
contents, when (a) its protocol is TCP and fewer than 20 bytes are present
at offset 14 + 4 * IHL, or (b) its protocol is UDP and fewer than 8 bytes
are present there, or (c) its protocol is UDP, its destination port is 4789
and fewer than 8 bytes are present after the UDP header. -/
theorem nic_ingress_truncated_l4_pass (o : ByteOrder) (config_map : BpfArray)
    (neighbor_map vni_map : BpfHash) (skb : Frame)
    (hip : etherType skb = 0x0800)
    (h : (ipProto skb = 6 ∧ skb.length < l4Off skb + 20)
      ∨ (ipProto skb = 17 ∧ skb.length < l4Off skb + 8)
      ∨ (ipProto skb = 17 ∧ l4Dport skb = 4789 ∧ skb.length < vxlanOff skb + 8)) :
    nic_ingress o config_map neighbor_map vni_map skb = some Verdict.Pass := by
  cases hcfg : config_map[0]? with
  | none => exact nic_ingress_null o config_map neighbor_map vni_map skb hcfg
  | some t =>
    rw [nic_ingress_eq_closed o config_map t neighbor_map vni_map skb hcfg]
    rcases h with ⟨hp, hl⟩ | ⟨hp, hl⟩ | ⟨hp, hd, hl⟩
    · simp [nic_ingress_closed, hip, hp, hl]
    · simp [nic_ingress_closed, hip, hp, hl]
    · simp [nic_ingress_closed, hip, hp, hd, hl]

/-- Claim C11, at concrete frames: a BGP segment from a neighbor cut after 19
bytes of TCP header, a BFD packet from a neighbor cut after 7 bytes of UDP
header, and a VXLAN packet with a configured VNI cut after VXLAN byte 6. -/
theorem nic_ingress_truncated_l4_pass_witness :
    nic_ingress .little [42] exNeighbors exVnis (exBgpFrame.take 57) = some Verdict.Pass
      ∧ nic_ingress .little [42] exNeighbors exVnis (exBfdFrame.take 45) = some Verdict.Pass
      ∧ nic_ingress .little [42] exNeighbors exVnis (exVxlanFrame.take 53)
          = some Verdict.Pass :=
  ⟨nic_ingress_truncated_l4_pass .little [42] exNeighbors exVnis (exBgpFrame.take 57)
      (by decide) (Or.inl (by decide)),
   nic_ingress_truncated_l4_pass .little [42] exNeighbors exVnis (exBfdFrame.take 45)
      (by decide) (Or.inr (Or.inl (by decide))),
   nic_ingress_truncated_l4_pass .little [42] exNeighbors exVnis (exVxlanFrame.take 53)
      (by decide) (Or.inr (Or.inr (by decide)))⟩

/-! ## Targets of the verdicts -/

/-- Claim C12: for every frame, bindings and map contents, `nic_ingress`
returns `Pass`, `Redirect t` or `CloneRedirect t`, and `ul_host_ingress`
returns `Pass` or `Redirect t`, where `t` is the value held by slot 0 of the
config_map of that program; no other interface index occurs in a verdict. -/
theorem verdict_target_is_binding (o : ByteOrder) (nic_config ul_config : BpfArray)
    (neighbor_map vni_map : BpfHash) (skb : Frame) :
    (∃ v, nic_ingress o nic_config neighbor_map vni_map skb = some v
        ∧ (v = Verdict.Pass
          ∨ ∃ t, bindingSet nic_config t ∧ (v = Verdict.Redirect t ∨ v = Verdict.CloneRedirect t)))
      ∧ (∃ v, ul_host_ingress ul_config skb = some v
        ∧ (v = Verdict.Pass ∨ ∃ t, bindingSet ul_config t ∧ v = Verdict.Redirect t)) := by
  constructor
  · cases hcfg : nic_config[0]? with
    | none =>
      exact ⟨_, nic_ingress_null o nic_config neighbor_map vni_map skb hcfg, Or.inl rfl⟩
    | some t =>
      refine ⟨_, nic_ingress_eq_closed o nic_config t neighbor_map vni_map skb hcfg, ?_⟩
      rcases nic_ingress_closed_cases o t neighbor_map vni_map skb with h | h | h
      · exact Or.inl h
      · exact Or.inr ⟨t, hcfg, Or.inl h⟩
      · exact Or.inr ⟨t, hcfg, Or.inr h⟩
  · cases hcfg : ul_config[0]? with
    | none =>
      exact ⟨Verdict.Pass, by simp [ul_host_ingress, bpf_array_lookup_elem, hcfg], Or.inl rfl⟩
    | some t =>
      exact ⟨Verdict.Redirect t, by simp [ul_host_ingress, bpf_array_lookup_elem, hcfg],
        Or.inr ⟨t, hcfg, rfl⟩⟩

/-! ## Table operations -/

set_option maxRecDepth 100000 in
/-- Claim C13, as stated, fails on a full table: after the addresses 1, ...,
64 have been upserted, `upsert_neighbor` of the new address 1000 reports a
capacity error and `lookup_neighbor` of 1000 right after it returns false. -/
theorem neighbor_round_trip_full_table :
    exFullNeighbors.length = 64
      ∧ (upsert_neighbor exFullNeighbors 1000).1 = TableResult.capacity_error
      ∧ lookup_neighbor (upsert_neighbor exFullNeighbors 1000).2 1000 = false := by
  decide

/-- Claim C13, amended: when address `a` is already in the table or the
table holds fewer than 64 entries, `upsert_neighbor a` followed by
`lookup_neighbor a` returns true; and for every table, `remove_neighbor a`
followed by `lookup_neighbor a` returns false. -/
theorem neighbor_round_trip (m : BpfHash) (a : Nat) :
    ((lookup_neighbor m a = true ∨ m.length < 64) →
        (upsert_neighbor m a).1 = TableResult.ok
          ∧ lookup_neighbor (upsert_neighbor m a).2 a = true)
      ∧ lookup_neighbor (remove_neighbor m a) a = false := by
  constructor
  · intro h
    have hok : (upsert_neighbor m a).1 = TableResult.ok := by
      unfold upsert_neighbor table_upsert NEIGHBOR_MAX_ENTRIES
      rcases h with h | h
      · have hk : hasKey m a := (lookup_isSome_iff m a).1 h
        simp [hk]
      · by_cases hk : hasKey m a
        · simp [hk]
        · simp [hk, h]
    refine ⟨hok, ?_⟩
    unfold lookup_neighbor
    rw [lookup_isSome_iff]
    exact (hasKey_table_upsert NEIGHBOR_MAX_ENTRIES m a a).2 (Or.inr ⟨rfl, hok⟩)
  · unfold lookup_neighbor remove_neighbor
    cases hl : (bpf_map_lookup_elem (table_remove m a) a).isSome with
    | false => rfl
    | true =>
      have := (hasKey_table_remove m a a).1 ((lookup_isSome_iff _ a).1 hl)
      exact absurd rfl this.2

/-- Claim C13, amended, at concrete tables: 10.0.0.1 upserted into the empty
table is found, and removed again is not found. -/
theorem neighbor_round_trip_witness :
    lookup_neighbor (upsert_neighbor [] 167772161).2 167772161 = true
      ∧ lookup_neighbor (remove_neighbor (upsert_neighbor [] 167772161).2 167772161)
          167772161 = false :=
  ⟨((neighbor_round_trip [] 167772161).1 (Or.inr (by decide))).2,
   (neighbor_round_trip (upsert_neighbor [] 167772161).2 167772161).2⟩

/-- Claim C14: a neighbor table of at most 64 entries still has at most 64
after an upsert or a removal, and a VNI table of at most 1024 still has at
most 1024; an upsert of a key that is not in a full table reports a capacity
error and returns the table as it was, so every lookup answers as before. -/
theorem table_capacity (m : BpfHash) (k : Nat) :
    (m.length ≤ 64 →
        (upsert_neighbor m k).2.length ≤ 64 ∧ (remove_neighbor m k).length ≤ 64)
      ∧ (m.length ≤ 1024 →
        (upsert_vni m k).2.length ≤ 1024 ∧ (remove_vni m k).length ≤ 1024)
      ∧ (¬ hasKey m k → 64 ≤ m.length →
        upsert_neighbor m k = (TableResult.capacity_error, m)
          ∧ ∀ a, lookup_neighbor (upsert_neighbor m k).2 a = lookup_neighbor m a)
      ∧ (¬ hasKey m k → 1024 ≤ m.length →
        upsert_vni m k = (TableResult.capacity_error, m)
          ∧ ∀ v, lookup_vni (upsert_vni m k).2 v = lookup_vni m v) := by
  refine ⟨?_, ?_, ?_, ?_⟩
  · intro h
    exact ⟨table_upsert_length NEIGHBOR_MAX_ENTRIES m k h,
      Nat.le_trans (List.length_filter_le _ m) h⟩
  · intro h
    exact ⟨table_upsert_length VNI_MAX_ENTRIES m k h,
      Nat.le_trans (List.length_filter_le _ m) h⟩
  · intro hnew hfull
    have he : upsert_neighbor m k = (TableResult.capacity_error, m) :=
      table_upsert_full NEIGHBOR_MAX_ENTRIES m k hnew hfull
    exact ⟨he, fun a => by rw [he]⟩
  · intro hnew hfull
    have he : upsert_vni m k = (TableResult.capacity_error, m) :=
      table_upsert_full VNI_MAX_ENTRIES m k hnew hfull
    exact ⟨he, fun v => by rw [he]⟩

set_option maxRecDepth 100000 in
/-- Claim C14, at a concrete table: the full neighbor table of the addresses
1, ..., 64 rejects the new address 1000 and is returned as it was, and it
still has 64 entries after an upsert of the address 7 that it holds. -/
theorem table_capacity_witness :
    upsert_neighbor exFullNeighbors 1000 = (TableResult.capacity_error, exFullNeighbors)
      ∧ (upsert_neighbor exFullNeighbors 7).2.length ≤ 64 :=
  ⟨((table_capacity exFullNeighbors 1000).2.2.1 (by decide) (by decide)).1,
   ((table_capacity exFullNeighbors 7).1 (by decide)).1⟩

/-! ## Ingress classifier: which frames get which verdict -/

/-- Claim C15: with the binding set to `t`, `nic_ingress` returns
`Redirect t` exactly for the frames described by `isSteered` (IPv4 with a
full header of valid IHL and one of: TCP with full header, a port 179 and
source in the neighbor map; UDP with full header, destination port 3784 or
4784 and source in the neighbor map; UDP with destination port 4789, 8
further bytes and VNI in the VNI map); every frame that is not ARP and not
one of these gets `Pass`. -/
theorem nic_ingress_redirect_iff (o : ByteOrder) (config_map : BpfArray) (t : Nat)
    (neighbor_map vni_map : BpfHash) (skb : Frame)
    (hset : bindingSet config_map t) :
    (nic_ingress o config_map neighbor_map vni_map skb = some (Verdict.Redirect t)
        ↔ isSteered o neighbor_map vni_map skb)
      ∧ (¬ isArp skb → ¬ isSteered o neighbor_map vni_map skb →
        nic_ingress o config_map neighbor_map vni_map skb = some Verdict.Pass) := by
  rw [nic_ingress_eq_closed o config_map t neighbor_map vni_map skb hset]
  constructor
  · rw [Option.some_inj]
    exact nic_ingress_closed_redirect_iff o t neighbor_map vni_map skb
  · intro ha hs
    rw [nic_ingress_closed_eq, if_neg ha, if_neg hs]

/-- Claim C15, at concrete frames: a BGP segment from a neighbor is steered
and redirected; the same segment from a stranger and a UDP packet to port 53
are neither ARP nor steered and are passed. -/
theorem nic_ingress_redirect_iff_witness :
    nic_ingress .little [42] exNeighbors exVnis exBgpFrame = some (Verdict.Redirect 42)
      ∧ nic_ingress .little [42] exNeighbors exVnis exBgpStranger = some Verdict.Pass
      ∧ nic_ingress .little [42] exNeighbors exVnis exBfdSportFrame = some Verdict.Pass :=
  ⟨(nic_ingress_redirect_iff .little [42] 42 exNeighbors exVnis exBgpFrame (by decide)).1.2
      (by decide),
   (nic_ingress_redirect_iff .little [42] 42 exNeighbors exVnis exBgpStranger (by decide)).2
      (by decide) (by decide),
   (nic_ingress_redirect_iff .little [42] 42 exNeighbors exVnis exBfdSportFrame (by decide)).2
      (by decide) (by decide)⟩

/-- Claim C16: let the binding be set to `t` and the frame be IPv4 with IHL
at least 5, protocol UDP, destination port 4789 and the 8 VXLAN header bytes
present, `b4 b5 b6 b7` being header bytes 4..7.  Then the word-to-key step
of the program, `bpf_ntohl(vni_word) >> 8` on the loaded word, yields
65536 * b4 + 256 * b5 + b6 on either byte order; `nic_ingress` returns
`Redirect t` exactly when that number is a key of the VNI map, and `Pass`
otherwise, so a one-entry VNI map steers the frame exactly when its key is
that number; the number is below 2^24; and every frame of the same length
that differs from this one only in VXLAN header bytes 0..3 and 7 gets the
same verdict.  Moreover, for every frame, two VNI maps that agree on all
keys below 2^24 give the same verdict. -/
theorem vni_extraction (o : ByteOrder) (config_map : BpfArray) (t : Nat)
    (neighbor_map vni_map : BpfHash) (skb : Frame)
    (hset : bindingSet config_map t) :
    (etherType skb = 0x0800 → 5 ≤ ipIhl skb → ipProto skb = 17 → l4Dport skb = 4789 →
        vxlanOff skb + 8 ≤ skb.length →
        (load32 o skb (vxlanOff skb + 4)).map (fun vni_word => bpf_ntohl o vni_word >>> 8)
            = some (65536 * byteAt skb (vxlanOff skb + 4) + 256 * byteAt skb (vxlanOff skb + 5)
                + byteAt skb (vxlanOff skb + 6))
          ∧ nic_ingress o config_map neighbor_map vni_map skb
            = some (if hasKey vni_map
                  (65536 * byteAt skb (vxlanOff skb + 4) + 256 * byteAt skb (vxlanOff skb + 5)
                    + byteAt skb (vxlanOff skb + 6))
                then Verdict.Redirect t else Verdict.Pass)
          ∧ (∀ k v : Nat,
              nic_ingress o config_map neighbor_map [(k, v)] skb = some (Verdict.Redirect t)
                ↔ k = 65536 * byteAt skb (vxlanOff skb + 4)
                    + 256 * byteAt skb (vxlanOff skb + 5) + byteAt skb (vxlanOff skb + 6))
          ∧ 65536 * byteAt skb (vxlanOff skb + 4) + 256 * byteAt skb (vxlanOff skb + 5)
              + byteAt skb (vxlanOff skb + 6) < 2 ^ 24
          ∧ (∀ g : Frame, g.length = skb.length →
              (∀ i, i ≠ vxlanOff skb → i ≠ vxlanOff skb + 1 → i ≠ vxlanOff skb + 2 →
                i ≠ vxlanOff skb + 3 → i ≠ vxlanOff skb + 7 → byteAt g i = byteAt skb i) →
              nic_ingress o config_map neighbor_map vni_map g
                = nic_ingress o config_map neighbor_map vni_map skb))
      ∧ (∀ vni_map2 : BpfHash,
          (∀ k, k < 2 ^ 24 → (hasKey vni_map k ↔ hasKey vni_map2 k)) →
          nic_ingress o config_map neighbor_map vni_map skb
            = nic_ingress o config_map neighbor_map vni_map2 skb) := by
  constructor
  · intro hip hihl hudp hport hlen
    have hvo : vxlanOff skb = 14 + 4 * ipIhl skb + 8 := rfl
    have hlo : l4Off skb = 14 + 4 * ipIhl skb := rfl
    have hverdict : ∀ vm : BpfHash, nic_ingress o config_map neighbor_map vm skb
        = some (if hasKey vm (vxlanVni skb) then Verdict.Redirect t else Verdict.Pass) := by
      intro vm
      rw [nic_ingress_eq_closed o config_map t neighbor_map vm skb hset]
      have h14 : ¬ skb.length < 14 := by omega
      have h34 : ¬ skb.length < 34 := by omega
      have h5 : ¬ ipIhl skb < 5 := by omega
      have h4 : ¬ skb.length < l4Off skb := by omega
      have h8 : ¬ skb.length < l4Off skb + 8 := by omega
      have h16 : ¬ skb.length < vxlanOff skb + 8 := by omega
      simp [nic_ingress_closed, h14, hip, h34, h5, h4, hudp, h8, hport, h16]
    refine ⟨?_, hverdict vni_map, ?_, vxlanVni_lt skb, ?_⟩
    · rw [load32_eq o (show vxlanOff skb + 4 + 3 < skb.length by omega), Option.map_some']
      exact congrArg some (ntohl_host32_shr o (byteAt_lt skb _) (byteAt_lt skb _)
        (byteAt_lt skb _) (byteAt_lt skb _))
    · intro k v
      rw [hverdict [(k, v)]]
      have hk : hasKey [(k, v)] (vxlanVni skb) ↔ vxlanVni skb = k := by
        simp [hasKey]
      by_cases he : vxlanVni skb = k
      · rw [if_pos (hk.2 he)]
        exact iff_of_true rfl he.symm
      · rw [if_neg (fun h => he (hk.1 h))]
        exact iff_of_false (by simp) (fun h => he h.symm)
    · intro g hg hsame
      have hfields : sameSteeringFields skb g := by
        refine ⟨?_, ?_, ?_, ?_, ?_, ?_, ?_, ?_, ?_, ?_⟩
        · exact (hsame 12 (by omega) (by omega) (by omega) (by omega) (by omega)).symm
        · exact (hsame 13 (by omega) (by omega) (by omega) (by omega) (by omega)).symm
        · rw [hsame 14 (by omega) (by omega) (by omega) (by omega) (by omega)]
        · exact (hsame 23 (by omega) (by omega) (by omega) (by omega) (by omega)).symm
        · exact (hsame 26 (by omega) (by omega) (by omega) (by omega) (by omega)).symm
        · exact (hsame 27 (by omega) (by omega) (by omega) (by omega) (by omega)).symm
        · exact (hsame 28 (by omega) (by omega) (by omega) (by omega) (by omega)).symm
        · exact (hsame 29 (by omega) (by omega) (by omega) (by omega) (by omega)).symm
        · intro _
          exact ⟨(hsame _ (by omega) (by omega) (by omega) (by omega) (by omega)).symm,
            (hsame _ (by omega) (by omega) (by omega) (by omega) (by omega)).symm,
            (hsame _ (by omega) (by omega) (by omega) (by omega) (by omega)).symm,
            (hsame _ (by omega) (by omega) (by omega) (by omega) (by omega)).symm⟩
        · intro _
          exact ⟨(hsame _ (by omega) (by omega) (by omega) (by omega) (by omega)).symm,
            (hsame _ (by omega) (by omega) (by omega) (by omega) (by omega)).symm,
            (hsame _ (by omega) (by omega) (by omega) (by omega) (by omega)).symm,
            (hsame _ (by omega) (by omega) (by omega) (by omega) (by omega)).symm,
            (hsame _ (by omega) (by omega) (by omega) (by omega) (by omega)).symm⟩
      rw [nic_ingress_eq_closed o config_map t neighbor_map vni_map g hset,
        nic_ingress_eq_closed o config_map t neighbor_map vni_map skb hset,
        nic_ingress_closed_congr o t neighbor_map vni_map skb g hg.symm hfields]
  · intro vni_map2 h
    rw [nic_ingress_eq_closed o config_map t neighbor_map vni_map skb hset,
      nic_ingress_eq_closed o config_map t neighbor_map vni_map2 skb hset,
      nic_ingress_closed_eq, nic_ingress_closed_eq]
    have hs := isSteered_congr_vni o neighbor_map vni_map vni_map2 skb
      (h (vxlanVni skb) (vxlanVni_lt skb))
    simp only [hs]

/-- Claim C16, at a concrete frame with VNI 500, flags 0xff and reserved byte
0x77: it is redirected when the VNI map holds 500; it is passed when the map
holds only 0x01f477 (VXLAN bytes 5, 6, 7 read as a number); it gets the
verdict of the same packet with the usual flags and reserved byte 0; and the
map holding only 2^24 + 500 gives the verdict of the empty map. -/
theorem vni_extraction_witness :
    nic_ingress .little [42] [] exVnis exVxlanReserved = some (Verdict.Redirect 42)
      ∧ nic_ingress .little [42] [] [(0x01f477, 1)] exVxlanReserved ≠ some (Verdict.Redirect 42)
      ∧ nic_ingress .little [42] [] exVnis exVxlanFrame
          = nic_ingress .little [42] [] exVnis exVxlanReserved
      ∧ nic_ingress .little [42] [] [(16777716, 1)] exVxlanReserved
          = nic_ingress .little [42] [] [] exVxlanReserved :=
  ⟨((vni_extraction .little [42] 42 [] exVnis exVxlanReserved (by decide)).1
      (by decide) (by decide) (by decide) (by decide) (by decide)).2.1,
   fun h => absurd (((vni_extraction .little [42] 42 [] exVnis exVxlanReserved (by decide)).1
      (by decide) (by decide) (by decide) (by decide) (by decide)).2.2.1 0x01f477 1 |>.1 h)
      (by decide),
   ((vni_extraction .little [42] 42 [] exVnis exVxlanReserved (by decide)).1
      (by decide) (by decide) (by decide) (by decide) (by decide)).2.2.2.2 exVxlanFrame
      (by decide) (by
        intro i h0 h1 h2 h3 h7
        have e : vxlanOff exVxlanReserved = 46 := by decide
        rw [e] at h0 h1 h2 h3 h7
        by_cases hi : i < 54
        · interval_cases i <;> first | rfl | omega
        · have hr : ∀ f : Frame, f.length ≤ i → byteAt f i = 0 := by
            intro f hf
            simp [byteAt, load8, List.getElem?_eq_none hf]
          rw [hr exVxlanFrame (by simp [exVxlanFrame, exEth, exIp6, exUdp]; omega),
            hr exVxlanReserved (by simp [exVxlanReserved, exEth, exIp6, exUdp]; omega)]),
   ((vni_extraction .little [42] 42 [] [(16777716, 1)] exVxlanReserved (by decide)).2 []
      (fun k hk => by simp [hasKey]; omega))⟩

/-- Claim C18: two frames of the same length that agree on the EtherType
bytes, the IHL nibble, the protocol byte, the source address bytes, the TCP
port bytes (protocol TCP) or the UDP destination port bytes and VXLAN header
bytes 4-6 (protocol UDP) get the same verdict from `nic_ingress` under the
same binding and maps; all other bytes play no part. -/
theorem nic_ingress_noninterference (o : ByteOrder) (config_map : BpfArray)
    (neighbor_map vni_map : BpfHash) (f g : Frame)
    (hlen : f.length = g.length)
    (h : sameSteeringFields f g) :
    nic_ingress o config_map neighbor_map vni_map f
      = nic_ingress o config_map neighbor_map vni_map g := by
  cases hcfg : config_map[0]? with
  | none =>
    rw [nic_ingress_null o config_map neighbor_map vni_map f hcfg,
      nic_ingress_null o config_map neighbor_map vni_map g hcfg]
  | some t =>
    rw [nic_ingress_eq_closed o config_map t neighbor_map vni_map f hcfg,
      nic_ingress_eq_closed o config_map t neighbor_map vni_map g hcfg,
      nic_ingress_closed_congr o t neighbor_map vni_map f g hlen h]

/-- Claim C18, at concrete frames: the non-first fragment `exBgpFragment`
gets the verdict of the BGP segment `exBgpFrame`, which is `Redirect 42`. -/
theorem nic_ingress_noninterference_witness :
    nic_ingress .little [42] exNeighbors exVnis exBgpFrame
        = nic_ingress .little [42] exNeighbors exVnis exBgpFragment
      ∧ nic_ingress .little [42] exNeighbors exVnis exBgpFragment
        = some (Verdict.Redirect 42) :=
  ⟨nic_ingress_noninterference .little [42] exNeighbors exVnis exBgpFrame exBgpFragment
      (by decide) (by decide),
   by decide⟩

/-- Claim C19: when every key of the neighbor map is a key of `nm2` and every
key of the VNI map is a key of `vm2`, a frame that `nic_ingress` redirects
to `t` under the two smaller maps is redirected to `t` under the two larger
ones; and a frame that gets `CloneRedirect t` under one pair of maps gets it
under every pair of maps. -/
theorem nic_ingress_mono (o : ByteOrder) (config_map : BpfArray) (t : Nat)
    (neighbor_map vni_map nm2 vm2 : BpfHash) (skb : Frame)
    (hn : ∀ k, hasKey neighbor_map k → hasKey nm2 k)
    (hv : ∀ k, hasKey vni_map k → hasKey vm2 k) :
    (nic_ingress o config_map neighbor_map vni_map skb = some (Verdict.Redirect t) →
        nic_ingress o config_map nm2 vm2 skb = some (Verdict.Redirect t))
      ∧ ∀ nm3 vm3 : BpfHash,
        nic_ingress o config_map neighbor_map vni_map skb = some (Verdict.CloneRedirect t) →
          nic_ingress o config_map nm3 vm3 skb = some (Verdict.CloneRedirect t) := by
  cases hcfg : config_map[0]? with
  | none =>
    rw [nic_ingress_null o config_map neighbor_map vni_map skb hcfg]
    constructor
    · intro h
      cases h
    · intro _ _ h
      cases h
  | some u =>
    rw [nic_ingress_eq_closed o config_map u neighbor_map vni_map skb hcfg,
      nic_ingress_eq_closed o config_map u nm2 vm2 skb hcfg]
    constructor
    · intro h
      rw [nic_ingress_closed_eq] at h
      rw [nic_ingress_closed_eq]
      by_cases ha : isArp skb
      · rw [if_pos ha] at h
        cases h
      · rw [if_neg ha] at h
        rw [if_neg ha]
        by_cases hs : isSteered o neighbor_map vni_map skb
        · rw [if_pos hs] at h
          rw [if_pos (isSteered_mono o neighbor_map nm2 vni_map vm2 skb hn hv hs)]
          exact h
        · rw [if_neg hs] at h
          cases h
    · intro nm3 vm3 h
      rw [nic_ingress_eq_closed o config_map u nm3 vm3 skb hcfg]
      rw [nic_ingress_closed_eq] at h
      rw [nic_ingress_closed_eq]
      by_cases ha : isArp skb
      · rw [if_pos ha] at h
        rw [if_pos ha]
        exact h
      · rw [if_neg ha] at h
        by_cases hs : isSteered o neighbor_map vni_map skb
        · rw [if_pos hs] at h
          cases h
        · rw [if_neg hs] at h
          cases h

/-- Claim C19, at concrete inputs: the BGP segment redirected with the
neighbor 10.0.0.1 and no VNI stays redirected after the neighbor 10.0.0.5
and the VNI 500 are added; the ARP frame cloned under these maps is cloned
under the empty maps. -/
theorem nic_ingress_mono_witness :
    nic_ingress .little [42] ((host32 .little 10 0 0 5, 1) :: exNeighbors) exVnis exBgpFrame
        = some (Verdict.Redirect 42)
      ∧ nic_ingress .little [42] [] [] exArpFrame = some (Verdict.CloneRedirect 42) :=
  ⟨(nic_ingress_mono .little [42] 42 exNeighbors []
        ((host32 .little 10 0 0 5, 1) :: exNeighbors) exVnis exBgpFrame
        (fun k h => (hasKey_cons exNeighbors _ k).2 (Or.inr h))
        (fun k h => absurd h (by simp [hasKey]))).1 (by decide),
   (nic_ingress_mono .little [42] 42 exNeighbors exVnis exNeighbors exVnis exArpFrame
        (fun _ h => h) (fun _ h => h)).2 [] [] (by decide)⟩

end OpenPERouter
